import Mathlib

/-!
Verification of the `blown-fuse` FUSE server library.

This file gives a shallow embedding of the wire-protocol codec, the
session reply path, the handshake version negotiation, the readdir
record buffering and the xattr/open/write reply surfaces, translated
from the Rust sources (`src/proto.rs`, `src/session.rs`, `src/util.rs`,
`src/ops/dir.rs`, `src/ops/open.rs`, `src/ops/rw.rs`, `src/ops/xattr.rs`),
together with theorems about these definitions.

Conventions of the embedding:
* byte buffers are `List Nat`, each element a byte value; multi-byte
  fields are little-endian, matching the packed `repr(C)` layouts;
* machine-integer casts are explicit `% 2^32` operations;
* fallible operations return `Except`/`Option`; a Rust `panic!`/`assert!`
  is modelled as `Option.none`;
* logging is modelled as a `Bool` flag where a claim mentions it;
  host callbacks (`unveil`) and raw I/O are outside the model.
-/

namespace BlownFuse

/-- Little-endian value of a byte list (each element reduced mod 256),
matching how a packed multi-byte field is read from the wire. -/
def leVal (bs : List Nat) : Nat :=
  bs.foldr (fun b acc => b % 256 + 256 * acc) 0

/-- Little-endian byte encoding of `v` in `w` bytes (`bytemuck::bytes_of`
for an unsigned field of width `w`). -/
def leBytes : Nat → Nat → List Nat
  | 0, _ => []
  | w + 1, v => v % 256 :: leBytes w (v / 256)

/-- Read the little-endian `u32` field at byte offset `off`. -/
def readU32 (bs : List Nat) (off : Nat) : Nat :=
  leVal ((bs.drop off).take 4)

theorem leBytes_length (w v : Nat) : (leBytes w v).length = w := by
  induction w generalizing v with
  | zero => rfl
  | succ w ih => simp [leBytes, ih]

/-! ### Struct sizes (from the packed `repr(C)` definitions in `src/proto.rs`) -/

def size_InHeader : Nat := 40
def size_OutHeader : Nat := 16
def size_ForgetIn : Nat := 8
def size_GetattrIn : Nat := 16
def size_SetattrIn : Nat := 88
def size_MknodIn : Nat := 16
def size_MkdirIn : Nat := 8
def size_RenameIn : Nat := 8
def size_LinkIn : Nat := 8
def size_OpenIn : Nat := 8
def size_ReadIn : Nat := 40
def size_WriteIn : Nat := 40
def size_ReleaseIn : Nat := 24
def size_FsyncIn : Nat := 16
def size_SetxattrIn : Nat := 8
def size_GetxattrIn : Nat := 8
def size_ListxattrIn : Nat := 8
def size_FlushIn : Nat := 24
def size_InitIn : Nat := 16
def size_OpendirIn : Nat := 8
def size_ReaddirIn : Nat := 40
def size_ReleasedirIn : Nat := 24
def size_FsyncdirIn : Nat := 16
def size_GetlkIn : Nat := 48
def size_SetlkIn : Nat := 48
def size_SetlkwIn : Nat := 48
def size_AccessIn : Nat := 8
def size_CreateIn : Nat := 16
def size_InterruptIn : Nat := 8
def size_BmapIn : Nat := 16
def size_IoctlIn : Nat := 32
def size_PollIn : Nat := 24
def size_ForgetOne : Nat := 16
def size_BatchForgetIn : Nat := 8
def size_FallocateIn : Nat := 32
def size_ReaddirPlusIn : Nat := 40
def size_Rename2In : Nat := 16
def size_LseekIn : Nat := 24
def size_CopyFileRangeIn : Nat := 56
def size_Dirent : Nat := 24
def size_EntryOut : Nat := 128
def size_DirentPlus : Nat := 152

/-! ### Error taxonomy (`src/error.rs`) -/

/-- `FuseError` from `src/error.rs` (the `Io` payload is not modelled). -/
inductive FuseError where
  | Io
  | ProtocolInit
  | Truncated
  | BadOpcode
  | BadLength
  | ShortWrite
  deriving DecidableEq, Repr

/-! ### Opcodes (`src/proto.rs`) -/

inductive Opcode where
  | Lookup | Forget | Getattr | Setattr | Readlink | Symlink | Mknod
  | Mkdir | Unlink | Rmdir | Rename | Link | Open | Read | Write
  | Statfs | Release | Fsync | Setxattr | Getxattr | Listxattr
  | Removexattr | Flush | Init | Opendir | Readdir | Releasedir
  | Fsyncdir | Getlk | Setlk | Setlkw | Access | Create | Interrupt
  | Bmap | Destroy | Ioctl | Poll | NotifyReply | BatchForget
  | Fallocate | ReaddirPlus | Rename2 | Lseek | CopyFileRange
  deriving DecidableEq, Repr

/-- `Opcode::try_from` via `TryFromPrimitive`: the discriminant values
assigned in `src/proto.rs` (note 7 and 19 are unassigned). -/
def Opcode.tryFrom (n : Nat) : Option Opcode :=
  match n with
  | 1 => some .Lookup
  | 2 => some .Forget
  | 3 => some .Getattr
  | 4 => some .Setattr
  | 5 => some .Readlink
  | 6 => some .Symlink
  | 8 => some .Mknod
  | 9 => some .Mkdir
  | 10 => some .Unlink
  | 11 => some .Rmdir
  | 12 => some .Rename
  | 13 => some .Link
  | 14 => some .Open
  | 15 => some .Read
  | 16 => some .Write
  | 17 => some .Statfs
  | 18 => some .Release
  | 20 => some .Fsync
  | 21 => some .Setxattr
  | 22 => some .Getxattr
  | 23 => some .Listxattr
  | 24 => some .Removexattr
  | 25 => some .Flush
  | 26 => some .Init
  | 27 => some .Opendir
  | 28 => some .Readdir
  | 29 => some .Releasedir
  | 30 => some .Fsyncdir
  | 31 => some .Getlk
  | 32 => some .Setlk
  | 33 => some .Setlkw
  | 34 => some .Access
  | 35 => some .Create
  | 36 => some .Interrupt
  | 37 => some .Bmap
  | 38 => some .Destroy
  | 39 => some .Ioctl
  | 40 => some .Poll
  | 41 => some .NotifyReply
  | 42 => some .BatchForget
  | 43 => some .Fallocate
  | 44 => some .ReaddirPlus
  | 45 => some .Rename2
  | 46 => some .Lseek
  | 47 => some .CopyFileRange
  | _ => none

/-! ### The request decoder (`TryFrom<&[u8]> for Request` in `src/proto.rs`) -/

/-- `split_from_bytes::<T>` for a POD `T` of size `size`: split off the
leading `min(len, size)` bytes; `bytemuck::try_from_bytes` then succeeds
exactly when that piece has size `size`, else the decoder fails
`Truncated`. -/
def split_from_bytes (size : Nat) (bytes : List Nat) :
    Except FuseError (List Nat × List Nat) :=
  if size ≤ bytes.length then .ok (bytes.take size, bytes.drop size)
  else .error .Truncated

/-- `cstr_from_bytes`: when last, the whole remainder must be a
NUL-terminated string with no interior NUL (`CStr::from_bytes_with_nul`,
failure mapped to `BadLength`); otherwise split at the first NUL, failing
`Truncated` when there is none.  The returned name excludes the NUL. -/
def cstr_from_bytes (bytes : List Nat) (is_last : Bool) :
    Except FuseError (List Nat × List Nat) :=
  if is_last then
    if bytes.indexOf 0 + 1 = bytes.length then .ok (bytes.dropLast, [])
    else .error .BadLength
  else
    let nul := bytes.indexOf 0
    if nul = bytes.length then .error .Truncated
    else .ok (bytes.take nul, bytes.drop (nul + 1))

/-- `RequestBody` from `src/proto.rs`.  Struct references and C strings
are kept as their raw byte views (`pfx` stands for the Rust field
`prefix`). -/
inductive RequestBody where
  | Lookup (name : List Nat)
  | Forget (pfx : List Nat)
  | Getattr (pfx : List Nat)
  | Setattr (pfx : List Nat)
  | Readlink
  | Symlink (name target : List Nat)
  | Mknod (pfx name : List Nat)
  | Mkdir (pfx target : List Nat)
  | Unlink (name : List Nat)
  | Rmdir (name : List Nat)
  | Rename (pfx old new : List Nat)
  | Link (pfx : List Nat)
  | Open (pfx : List Nat)
  | Read (pfx : List Nat)
  | Write (pfx data : List Nat)
  | Statfs
  | Release (pfx : List Nat)
  | Fsync (pfx : List Nat)
  | Setxattr (pfx name value : List Nat)
  | Getxattr (pfx name : List Nat)
  | Listxattr (pfx : List Nat)
  | Removexattr (name : List Nat)
  | Flush (pfx : List Nat)
  | Init (pfx : List Nat)
  | Opendir (pfx : List Nat)
  | Readdir (pfx : List Nat)
  | Releasedir (pfx : List Nat)
  | Fsyncdir (pfx : List Nat)
  | Getlk (pfx : List Nat)
  | Setlk (pfx : List Nat)
  | Setlkw (pfx : List Nat)
  | Access (pfx : List Nat)
  | Create (pfx name : List Nat)
  | Interrupt (pfx : List Nat)
  | Bmap (pfx : List Nat)
  | Destroy
  | Ioctl (pfx data : List Nat)
  | Poll (pfx : List Nat)
  | NotifyReply
  | BatchForget (pfx forgets : List Nat)
  | Fallocate (pfx : List Nat)
  | ReaddirPlus (pfx : List Nat)
  | Rename2 (pfx old new : List Nat)
  | Lseek (pfx : List Nat)
  | CopyFileRange (pfx : List Nat)
  deriving DecidableEq, Repr

/-- Body grammar of one opcode (the `body!` macro arms in the `match`
of `TryFrom<&[u8]> for Request`): parses the bytes after the header,
returning the body and the unconsumed remainder. -/
def parse_body (opcode : Opcode) (bytes : List Nat) :
    Except FuseError (RequestBody × List Nat) :=
  match opcode with
  | .Lookup => do
      let (name, bytes) ← cstr_from_bytes bytes true
      .ok (.Lookup name, bytes)
  | .Forget => do
      let (pfx, bytes) ← split_from_bytes size_ForgetIn bytes
      .ok (.Forget pfx, bytes)
  | .Getattr => do
      let (pfx, bytes) ← split_from_bytes size_GetattrIn bytes
      .ok (.Getattr pfx, bytes)
  | .Setattr => do
      let (pfx, bytes) ← split_from_bytes size_SetattrIn bytes
      .ok (.Setattr pfx, bytes)
  | .Readlink => .ok (.Readlink, bytes)
  | .Symlink => do
      let (name, bytes) ← cstr_from_bytes bytes false
      let (target, bytes) ← cstr_from_bytes bytes true
      .ok (.Symlink name target, bytes)
  | .Mknod => do
      let (pfx, bytes) ← split_from_bytes size_MknodIn bytes
      let (name, bytes) ← cstr_from_bytes bytes true
      .ok (.Mknod pfx name, bytes)
  | .Mkdir => do
      let (pfx, bytes) ← split_from_bytes size_MkdirIn bytes
      let (target, bytes) ← cstr_from_bytes bytes true
      .ok (.Mkdir pfx target, bytes)
  | .Unlink => do
      let (name, bytes) ← cstr_from_bytes bytes true
      .ok (.Unlink name, bytes)
  | .Rmdir => do
      let (name, bytes) ← cstr_from_bytes bytes true
      .ok (.Rmdir name, bytes)
  | .Rename => do
      let (pfx, bytes) ← split_from_bytes size_RenameIn bytes
      let (old, bytes) ← cstr_from_bytes bytes false
      let (new, bytes) ← cstr_from_bytes bytes true
      .ok (.Rename pfx old new, bytes)
  | .Link => do
      let (pfx, bytes) ← split_from_bytes size_LinkIn bytes
      .ok (.Link pfx, bytes)
  | .Open => do
      let (pfx, bytes) ← split_from_bytes size_OpenIn bytes
      .ok (.Open pfx, bytes)
  | .Read => do
      let (pfx, bytes) ← split_from_bytes size_ReadIn bytes
      .ok (.Read pfx, bytes)
  | .Write => do
      let (pfx, bytes) ← split_from_bytes size_WriteIn bytes
      if readU32 pfx 16 = bytes.length then .ok (.Write pfx bytes, [])
      else .error .BadLength
  | .Statfs => .ok (.Statfs, bytes)
  | .Release => do
      let (pfx, bytes) ← split_from_bytes size_ReleaseIn bytes
      .ok (.Release pfx, bytes)
  | .Fsync => do
      let (pfx, bytes) ← split_from_bytes size_FsyncIn bytes
      .ok (.Fsync pfx, bytes)
  | .Setxattr => do
      let (pfx, bytes) ← split_from_bytes size_SetxattrIn bytes
      let (name, bytes) ← cstr_from_bytes bytes false
      let (value, bytes) ← cstr_from_bytes bytes true
      .ok (.Setxattr pfx name value, bytes)
  | .Getxattr => do
      let (pfx, bytes) ← split_from_bytes size_GetxattrIn bytes
      let (name, bytes) ← cstr_from_bytes bytes true
      .ok (.Getxattr pfx name, bytes)
  | .Listxattr => do
      let (pfx, bytes) ← split_from_bytes size_ListxattrIn bytes
      .ok (.Listxattr pfx, bytes)
  | .Removexattr => do
      let (name, bytes) ← cstr_from_bytes bytes true
      .ok (.Removexattr name, bytes)
  | .Flush => do
      let (pfx, bytes) ← split_from_bytes size_FlushIn bytes
      .ok (.Flush pfx, bytes)
  | .Init => do
      let (pfx, bytes) ← split_from_bytes size_InitIn bytes
      .ok (.Init pfx, bytes)
  | .Opendir => do
      let (pfx, bytes) ← split_from_bytes size_OpendirIn bytes
      .ok (.Opendir pfx, bytes)
  | .Readdir => do
      let (pfx, bytes) ← split_from_bytes size_ReaddirIn bytes
      .ok (.Readdir pfx, bytes)
  | .Releasedir => do
      let (pfx, bytes) ← split_from_bytes size_ReleasedirIn bytes
      .ok (.Releasedir pfx, bytes)
  | .Fsyncdir => do
      let (pfx, bytes) ← split_from_bytes size_FsyncdirIn bytes
      .ok (.Fsyncdir pfx, bytes)
  | .Getlk => do
      let (pfx, bytes) ← split_from_bytes size_GetlkIn bytes
      .ok (.Getlk pfx, bytes)
  | .Setlk => do
      let (pfx, bytes) ← split_from_bytes size_SetlkIn bytes
      .ok (.Setlk pfx, bytes)
  | .Setlkw => do
      let (pfx, bytes) ← split_from_bytes size_SetlkwIn bytes
      .ok (.Setlkw pfx, bytes)
  | .Access => do
      let (pfx, bytes) ← split_from_bytes size_AccessIn bytes
      .ok (.Access pfx, bytes)
  | .Create => do
      let (pfx, bytes) ← split_from_bytes size_CreateIn bytes
      let (name, bytes) ← cstr_from_bytes bytes true
      .ok (.Create pfx name, bytes)
  | .Interrupt => do
      let (pfx, bytes) ← split_from_bytes size_InterruptIn bytes
      .ok (.Interrupt pfx, bytes)
  | .Bmap => do
      let (pfx, bytes) ← split_from_bytes size_BmapIn bytes
      .ok (.Bmap pfx, bytes)
  | .Destroy => .ok (.Destroy, bytes)
  | .Ioctl => do
      let (pfx, bytes) ← split_from_bytes size_IoctlIn bytes
      if readU32 pfx 24 = bytes.length then .ok (.Ioctl pfx bytes, [])
      else .error .BadLength
  | .Poll => do
      let (pfx, bytes) ← split_from_bytes size_PollIn bytes
      .ok (.Poll pfx, bytes)
  | .NotifyReply => .ok (.NotifyReply, bytes)
  | .BatchForget => do
      let (pfx, bytes) ← split_from_bytes size_BatchForgetIn bytes
      if bytes.length % size_ForgetOne ≠ 0 then .error .Truncated
      else if readU32 pfx 0 = bytes.length / size_ForgetOne then
        .ok (.BatchForget pfx bytes, [])
      else .error .BadLength
  | .Fallocate => do
      let (pfx, bytes) ← split_from_bytes size_FallocateIn bytes
      .ok (.Fallocate pfx, bytes)
  | .ReaddirPlus => do
      let (pfx, bytes) ← split_from_bytes size_ReaddirPlusIn bytes
      .ok (.ReaddirPlus pfx, bytes)
  | .Rename2 => do
      let (pfx, bytes) ← split_from_bytes size_Rename2In bytes
      let (old, bytes) ← cstr_from_bytes bytes false
      let (new, bytes) ← cstr_from_bytes bytes true
      .ok (.Rename2 pfx old new, bytes)
  | .Lseek => do
      let (pfx, bytes) ← split_from_bytes size_LseekIn bytes
      .ok (.Lseek pfx, bytes)
  | .CopyFileRange => do
      let (pfx, bytes) ← split_from_bytes size_CopyFileRangeIn bytes
      .ok (.CopyFileRange pfx, bytes)

/-- A decoded request: the 40 raw header bytes plus the typed body. -/
structure Request where
  header : List Nat
  body : RequestBody
  deriving DecidableEq, Repr

/-- `InHeader.len` (`u32` at offset 0). -/
def InHeader.lenField (header : List Nat) : Nat := readU32 header 0

/-- `InHeader.opcode` (`u32` at offset 4). -/
def InHeader.opcodeField (header : List Nat) : Nat := readU32 header 4

/-- `TryFrom<&[u8]> for Request<'_>` from `src/proto.rs`: split the
header (`Truncated` if short), require `header.len == bytes.len()`
(`BadLength`), require a known opcode (`BadOpcode`), run the body
grammar, and require it to have consumed everything (`BadLength`). -/
def Request.try_from (full_bytes : List Nat) : Except FuseError Request :=
  match split_from_bytes size_InHeader full_bytes with
  | .error e => .error e
  | .ok (header, bytes) =>
    if InHeader.lenField header ≠ full_bytes.length then .error .BadLength
    else
      match Opcode.tryFrom (InHeader.opcodeField header) with
      | none => .error .BadOpcode
      | some opcode =>
        match parse_body opcode bytes with
        | .error e => .error e
        | .ok (body, rest) =>
          if rest.isEmpty then .ok ⟨header, body⟩ else .error .BadLength

/-! ### Output chains (`src/util.rs`) -/

/-- `OutputChain`: a slice of byte-slice segments plus an optional
previous chain (the Rust field `then`, here `next`). -/
inductive OutputChain where
  | node (segments : List (List Nat)) (next : Option OutputChain)

namespace OutputChain

def empty : OutputChain := .node [] none

def tail (segments : List (List Nat)) : OutputChain := .node segments none

def preceded (chain : OutputChain) (segments : List (List Nat)) : OutputChain :=
  .node segments (some chain)

/-- `OutputChainIter`: yields each link's segment list, front to back. -/
def iter : OutputChain → List (List (List Nat))
  | .node segments none => [segments]
  | .node segments (some next) => segments :: iter next

end OutputChain

/-- Total payload byte count of a chain
(`output.iter().flat_map(<[_]>::iter).map(<[_]>::len).sum()`). -/
def chain_payload_len (output : OutputChain) : Nat :=
  (output.iter.flatten.map List.length).sum

/-- All payload bytes of a chain in order (what `writev` puts on the wire
after the header; dropping empty segments does not change this). -/
def chain_payload (output : OutputChain) : List Nat :=
  output.iter.flatten.flatten

/-! ### Errno values (Linux, via `nix::errno::Errno`) -/

def ENOMSG : Int := 42
def EPROTONOSUPPORT : Int := 93
def ERANGE : Int := 34
def ENOBUFS : Int := 105

/-! ### The session reply path (`src/session.rs`) -/

/-- An `OutHeader`-framed reply as handed to `writev`: the three header
fields plus the payload bytes that follow the header. -/
structure SentMessage where
  len : Nat
  error : Int
  unique : Nat
  payload : List Nat
  deriving DecidableEq, Repr

/-- `Session::send`: frame `output` with an `OutHeader` whose `len` is
`size_of::<OutHeader>()` plus the payload bytes (cast to `u32`), keeping
the caller's `error` and `unique`. -/
def Session.send (unique : Nat) (error : Int) (output : OutputChain) :
    SentMessage :=
  { len := (size_OutHeader + chain_payload_len output) % 2 ^ 32
    error := error
    unique := unique
    payload := chain_payload output }

/-- The tail of `Session::send`: `writev` returned `written` bytes;
anything other than the header's `len` is a `ShortWrite` error. -/
def Session.write_result (msg : SentMessage) (written : Nat) :
    Except FuseError Unit :=
  if written = msg.len then .ok () else .error .ShortWrite

/-- `Session::ok`: a success reply (`error == 0`). -/
def Session.ok_send (unique : Nat) (output : OutputChain) : SentMessage :=
  Session.send unique 0 output

/-- `Session::fail`: an errno `<= 0` is coerced to `ENOMSG` (with a
logged warning); the reply carries the negated errno and no payload. -/
def Session.fail (unique : Nat) (errno : Int) : SentMessage :=
  let errno := if errno ≤ 0 then ENOMSG else errno
  Session.send unique (-errno) OutputChain.empty

/-! ### Handshake version negotiation (`Session::handshake`) -/

def MAJOR_VERSION : Nat := 7
def TARGET_MINOR_VERSION : Nat := 32
def REQUIRED_MINOR_VERSION : Nat := 31

/-- Outcome of one `Session::handshake` round on an `Init` message. -/
inductive HandshakeOutcome where
  | proceed
  | restart (sent : SentMessage)
  | protocolInit (sent : SentMessage)
  deriving DecidableEq, Repr

/-- The version check of `Session::handshake` on the first `Init`
message: `body.major.cmp(&MAJOR_VERSION)` decides between unsupported
(reply `EPROTONOSUPPORT`, then `Err(ProtocolInit)`), proceeding to the
host init handler, and the renegotiation reply carrying
`bytes_of(&MAJOR_VERSION)` followed by a restart of the loop. -/
def Session.handshake_check (unique major minor : Nat) : HandshakeOutcome :=
  let unsupported :=
    HandshakeOutcome.protocolInit (Session.fail unique EPROTONOSUPPORT)
  match compare major MAJOR_VERSION with
  | .lt => unsupported
  | .eq =>
      if REQUIRED_MINOR_VERSION ≤ minor then .proceed else unsupported
  | .gt =>
      .restart
        (Session.ok_send unique
          (OutputChain.tail [leBytes 4 MAJOR_VERSION]))

/-! ### Open replies (`src/ops/open.rs`) -/

/-- `OpenOutFlags` bit values from `src/proto.rs` (`bitflags!`).  The
reply state of `Open`/`Opendir`/`Create` is such a bit set, here a
`Nat` holding the `u32` bits. -/
def OpenOutFlags.DIRECT_IO : Nat := 1
def OpenOutFlags.KEEP_CACHE : Nat := 2
def OpenOutFlags.NONSEEKABLE : Nat := 4
def OpenOutFlags.CACHE_DIR : Nat := 8
def OpenOutFlags.STREAM : Nat := 16

/-- `FromRequest` for `OpenOutFlags`: the reply state starts empty. -/
def OpenOutFlags.empty : Nat := 0

/-- `force_direct_io`: `reply.state |= OpenOutFlags::DIRECT_IO`. -/
def ReplyOpen.force_direct_io (state : Nat) : Nat :=
  state ||| OpenOutFlags.DIRECT_IO

/-- `non_seekable`: `reply.state |= OpenOutFlags::NONSEEKABLE`. -/
def ReplyOpen.non_seekable (state : Nat) : Nat :=
  state ||| OpenOutFlags.NONSEEKABLE

/-- `is_stream`: `reply.state |= OpenOutFlags::STREAM`. -/
def ReplyOpen.is_stream (state : Nat) : Nat :=
  state ||| OpenOutFlags.STREAM

/-- `open_flags_bits` from `src/ops/open.rs`:
`(flags & OpenOutFlags::KEEP_CACHE & OpenOutFlags::CACHE_DIR).bits()`. -/
def open_flags_bits (flags : Nat) : Nat :=
  flags &&& OpenOutFlags.KEEP_CACHE &&& OpenOutFlags.CACHE_DIR

/-- Byte encoding of `proto::OpenOut` (`fh`, `open_flags`, `padding`). -/
def encode_OpenOut (fh open_flags : Nat) : List Nat :=
  leBytes 8 fh ++ leBytes 4 open_flags ++ leBytes 4 0

/-- `ok_with_handle`: emit an `OpenOut` whose `open_flags` field is
`open_flags_bits(reply.state)`. -/
def ReplyOpen.ok_with_handle (unique state handle : Nat) : SentMessage :=
  Session.ok_send unique
    (OutputChain.tail [encode_OpenOut handle (open_flags_bits state)])

/-! ### Buffered readdir (`src/ops/dir.rs`) -/

def DIRENT_ALIGNMENT_BITS : Nat := 3

/-- `dirent_pad_bytes`: zero-padding that brings `entry_len` up to the
next multiple of `1 << DIRENT_ALIGNMENT_BITS`. -/
def dirent_pad_bytes (entry_len : Nat) : Nat :=
  let ALIGN_MASK : Nat := (1 <<< DIRENT_ALIGNMENT_BITS) - 1
  ((entry_len + ALIGN_MASK) % 2 ^ 64 &&& (2 ^ 64 - 1 - ALIGN_MASK)) - entry_len

/-- A caller-supplied output buffer `B: BufMut + AsRef<[u8]>` with a
fixed capacity: `remaining_mut` is the free space, `as_ref` the bytes
written so far. -/
structure ByteBuf where
  cap : Nat
  data : List Nat
  deriving DecidableEq, Repr

def ByteBuf.remaining_mut (b : ByteBuf) : Nat := b.cap - b.data.length

def ByteBuf.as_ref (b : ByteBuf) : List Nat := b.data

def ByteBuf.put_slice (b : ByteBuf) (s : List Nat) : ByteBuf :=
  { b with data := b.data ++ s }

/-- `ReaddirState<B>` (with the buffer already attached). -/
structure ReaddirState where
  max_read : Nat
  is_plus : Bool
  buffer : ByteBuf
  deriving DecidableEq, Repr

/-- `Reply<BufferedReaddir<B>>`: the one-shot reply capability carrying
the request's `unique` and the readdir state. -/
structure ReaddirReply where
  unique : Nat
  state : ReaddirState
  deriving DecidableEq, Repr

/-- `Reply<Readdir>` before `buffered`: its state has `buffer = ()`. -/
structure ReaddirReply0 where
  unique : Nat
  max_read : Nat
  is_plus : Bool
  deriving DecidableEq, Repr

/-- `ReplyBuffered for Readdir::buffered`: asserts the supplied buffer
is empty (`assert!(buffer.as_ref().is_empty())`, modelled as `none`),
then re-wraps the reply around the buffer, keeping `unique`, `max_read`
and `is_plus`. -/
def Readdir.buffered (reply : ReaddirReply0) (buffer : ByteBuf) :
    Option ReaddirReply :=
  if buffer.as_ref.isEmpty then
    some
      { unique := reply.unique
        state :=
          { max_read := reply.max_read
            is_plus := reply.is_plus
            buffer := buffer } }
  else none

/-- Host-side inode data visible through the `Stat` trait: the inode
number, the `S_IFMT` type bits, the raw `proto::Attrs` bytes the host
supplies (already `finish`ed, 88 bytes), and the attr TTL. -/
structure InodeData where
  ino : Nat
  type_bits : Nat
  attrs_bytes : List Nat
  attr_ttl_secs : Nat
  attr_ttl_nanos : Nat
  deriving DecidableEq, Repr

/-- `io::Entry`: one directory entry handed to `Reply::entry`. -/
structure EntryInput where
  offset : Nat
  name : List Nat
  inode : InodeData
  ttl_secs : Nat
  ttl_nanos : Nat
  deriving DecidableEq, Repr

/-- Byte encoding of `proto::Dirent`. -/
def encode_Dirent (ino off namelen entry_type : Nat) : List Nat :=
  leBytes 8 ino ++ leBytes 8 off ++ leBytes 4 namelen ++ leBytes 4 entry_type

/-- `make_entry`: byte encoding of the `proto::EntryOut` built from the
inode and the TTLs (with `generation = 0`). -/
def encode_EntryOut (e : EntryInput) : List Nat :=
  leBytes 8 e.inode.ino ++ leBytes 8 0 ++ leBytes 8 e.ttl_secs ++
    leBytes 8 e.inode.attr_ttl_secs ++ leBytes 4 e.ttl_nanos ++
    leBytes 4 e.inode.attr_ttl_nanos ++ e.inode.attrs_bytes

/-- The record header bytes emitted for one entry: a `Dirent`, or in
plus mode a `DirentPlus { entry_out, dirent }`. -/
def entry_header_bytes (is_plus : Bool) (e : EntryInput) : List Nat :=
  let dirent :=
    encode_Dirent e.inode.ino e.offset (e.name.length % 2 ^ 32)
      ((e.inode.type_bits >>> 12) % 2 ^ 32)
  if is_plus then encode_EntryOut e ++ dirent else dirent

/-- Result of `Reply::entry` (`Interruptible<BufferedReaddir<B>, ()>`):
either the reply continues with the grown buffer, or it finished (an
`ENOBUFS` failure or a flush of the buffered records). -/
inductive EntryOutcome where
  | completed (reply : ReaddirReply)
  | interrupted (sent : SentMessage)
  deriving DecidableEq, Repr

/-- `ReplyEntries for BufferedReaddir::end`: flush the buffered records
as the reply payload. -/
def BufferedReaddir.endReply (reply : ReaddirReply) : SentMessage :=
  Session.ok_send reply.unique (OutputChain.tail [reply.state.buffer.as_ref])

/-- `ReplyEntries for BufferedReaddir::entry` from `src/ops/dir.rs`:
compute the 8-byte-aligned record length, bound the usable space by both
the buffer capacity and `max_read`, and either refuse the entry
(`ENOBUFS` when nothing is buffered, otherwise flush) or append the
record and decide whether another minimal record could still fit. -/
def BufferedReaddir.entry (reply : ReaddirReply) (e : EntryInput) :
    EntryOutcome :=
  let entry_header_len := if reply.state.is_plus then size_DirentPlus
    else size_Dirent
  let name := e.name
  let padding_len := dirent_pad_bytes (entry_header_len + name.length)
  let buffer := reply.state.buffer
  let remaining :=
    min buffer.remaining_mut (reply.state.max_read - buffer.as_ref.length)
  let record_len := entry_header_len + name.length + padding_len
  if remaining < record_len then
    if buffer.as_ref.isEmpty then
      .interrupted (Session.fail reply.unique ENOBUFS)
    else .interrupted (BufferedReaddir.endReply reply)
  else
    let entry_header := entry_header_bytes reply.state.is_plus e
    let buffer :=
      ((buffer.put_slice entry_header).put_slice name).put_slice
        (List.replicate padding_len 0)
    let reply : ReaddirReply :=
      { reply with state := { reply.state with buffer := buffer } }
    if entry_header.length + (1 <<< DIRENT_ALIGNMENT_BITS) ≤
        remaining - record_len then
      .completed reply
    else .interrupted (BufferedReaddir.endReply reply)

/-! ### Write replies (`src/ops/rw.rs`) -/

/-- `WriteState`: the kernel-reported size recorded at parse time. -/
structure WriteState where
  size : Nat
  deriving DecidableEq, Repr

/-- Modelled from the spec: the current revision's `Structured` codec
for the `Write` body `(&WriteIn, &[u8])` is not under `src/` (only the
superseded `TryFrom` decoder is); per spec §4.A a trailing POD slice
takes the whole remainder, with no length check against `WriteIn.size`. -/
def Write.parse_body (bytes : List Nat) :
    Except FuseError (List Nat × List Nat) :=
  if size_WriteIn ≤ bytes.length then
    .ok (bytes.take size_WriteIn, bytes.drop size_WriteIn)
  else .error .Truncated

/-- `WriteIn.size`: `u32` at byte offset 16 of the prefix struct. -/
def WriteIn.sizeField (pfx : List Nat) : Nat := readU32 pfx 16

/-- `FromRequest<Write> for WriteState`: record `WriteIn.size`
regardless of the data length. -/
def Write.from_request (pfx _data : List Nat) : WriteState :=
  { size := WriteIn.sizeField pfx }

/-- The `log::warn!` condition in `FromRequest<Write>`:
`body.size as usize != data.len()`. -/
def Write.warns (pfx data : List Nat) : Bool :=
  WriteIn.sizeField pfx ≠ data.length

/-- Modelled from the spec: byte encoding of `proto::WriteOut`
(`size`, `padding`), which is absent from the sources under `src/`. -/
def encode_WriteOut (size : Nat) : List Nat :=
  leBytes 4 size ++ leBytes 4 0

/-- `ReplyAll for Write::all`: acknowledge with the recorded size. -/
def Write.all (unique : Nat) (state : WriteState) : SentMessage :=
  Session.ok_send unique (OutputChain.tail [encode_WriteOut state.size])

/-! ### Getxattr replies (`src/ops/xattr.rs`) -/

/-- Byte encoding of `proto::GetxattrOut` (`size`, `padding`). -/
def encode_GetxattrOut (size : Nat) : List Nat :=
  leBytes 4 size ++ leBytes 4 0

/-- `ReplyXattrRead for Getxattr::requires_size`: emit a `GetxattrOut`
carrying the actual size. -/
def Getxattr.requires_size (unique size : Nat) : SentMessage :=
  Session.ok_send unique (OutputChain.tail [encode_GetxattrOut size])

/-- `ReplyGather for Getxattr::gather`: sum the fragment lengths (the
`try_into().expect(..)` panic on a sum `>= 2^32` is modelled as `none`);
a size inquiry (`state.size == 0`) answers with a `GetxattrOut`, a too
small `state.size` fails `ERANGE`, otherwise the fragments are the
reply payload. -/
def Getxattr.gather (unique state_size : Nat)
    (fragments : List (List Nat)) : Option SentMessage :=
  let size := (fragments.map List.length).sum
  if size < 2 ^ 32 then
    some
      (if state_size = 0 then Getxattr.requires_size unique size
       else if state_size < size then Session.fail unique ERANGE
       else Session.ok_send unique (OutputChain.tail fragments))
  else none

/-! ## Theorems -/

/-- C9: for all segment lists `xs` and `ys`, iterating
`OutputChain::tail(xs).preceded(ys)` yields exactly the two segment
lists `ys` then `xs` in that order, so flattening the iterator yields
`ys ++ xs`. -/
theorem output_chain_preceded_concat (xs ys : List (List Nat)) :
    ((OutputChain.tail xs).preceded ys).iter = [ys, xs] ∧
    ((OutputChain.tail xs).preceded ys).iter.flatten = ys ++ xs := by
  refine ⟨rfl, ?_⟩
  show ys ++ (xs ++ []) = ys ++ xs
  simp

/-- For a positive errno, `Session::fail` emits an empty-payload reply
carrying the negated errno (shared helper). -/
theorem session_fail_eq_of_pos (unique : Nat) (errno : Int)
    (h : 0 < errno) :
    Session.fail unique errno =
      { len := 16, error := -errno, unique := unique, payload := [] } := by
  simp_all [Session.fail, Session.send, chain_payload, chain_payload_len,
    OutputChain.empty, OutputChain.iter, size_OutHeader]

/-- C8: `Reply::fail(errno)` emits a reply whose `OutHeader.error` is
`-errno` for positive `errno`, and `-ENOMSG` (with a logged warning) for
any `errno <= 0`; in particular `fail(0)` replies with `-ENOMSG`. -/
theorem session_fail_coerces_errno (unique : Nat) (errno : Int) :
    (0 < errno → Session.fail unique errno =
      { len := 16, error := -errno, unique := unique, payload := [] }) ∧
    (errno ≤ 0 → Session.fail unique errno =
      { len := 16, error := -ENOMSG, unique := unique, payload := [] }) ∧
    (Session.fail unique 0).error = -ENOMSG := by
  refine ⟨fun h => ?_, fun h => ?_, ?_⟩ <;>
    simp_all [Session.fail, Session.send, chain_payload, chain_payload_len,
      OutputChain.empty, OutputChain.iter, size_OutHeader]

/-- Witness for `session_fail_coerces_errno` at `errno = 5` and
`errno = -3`. -/
theorem session_fail_coerces_errno_witness :
    Session.fail 7 5 =
      { len := 16, error := -5, unique := 7, payload := [] } ∧
    Session.fail 7 (-3) =
      { len := 16, error := -ENOMSG, unique := 7, payload := [] } :=
  ⟨(session_fail_coerces_errno 7 5).1 (by decide),
   (session_fail_coerces_errno 7 (-3)).2.1 (by decide)⟩

/-- C2: the handshake's treatment of the first `Init` message with
kernel version `(major, minor)`: `major < 7`, or `major = 7` with
`minor < 31`, sends an `EPROTONOSUPPORT` failure and errors out with
`ProtocolInit`; `major = 7` with `minor >= 31` proceeds to the host
init handler; `major > 7` sends a success reply whose sole payload is
the four bytes of `MAJOR_VERSION` and loops for another `Init`. -/
theorem handshake_version_negotiation (unique major minor : Nat) :
    (major < MAJOR_VERSION ∨
        (major = MAJOR_VERSION ∧ minor < REQUIRED_MINOR_VERSION) →
      Session.handshake_check unique major minor =
        .protocolInit
          { len := 16, error := -EPROTONOSUPPORT, unique := unique,
            payload := [] }) ∧
    (major = MAJOR_VERSION → REQUIRED_MINOR_VERSION ≤ minor →
      Session.handshake_check unique major minor = .proceed) ∧
    (MAJOR_VERSION < major →
      Session.handshake_check unique major minor =
        .restart
          { len := 20, error := 0, unique := unique,
            payload := [7, 0, 0, 0] }) := by
  have hfail : Session.fail unique EPROTONOSUPPORT =
      { len := 16, error := -EPROTONOSUPPORT, unique := unique,
        payload := [] } :=
    session_fail_eq_of_pos unique EPROTONOSUPPORT (by decide)
  refine ⟨fun h => ?_, fun h1 h2 => ?_, fun h => ?_⟩
  · rcases h with h | ⟨h1, h2⟩
    · rw [Session.handshake_check, Nat.compare_eq_lt.2 h, hfail]
    · rw [Session.handshake_check, Nat.compare_eq_eq.2 h1]
      simp only [Nat.not_le.2 h2, if_false, hfail]
  · rw [Session.handshake_check, Nat.compare_eq_eq.2 h1]
    simp [h2]
  · rw [Session.handshake_check, Nat.compare_eq_gt.2 h]
    simp [Session.ok_send, Session.send, chain_payload, chain_payload_len,
      OutputChain.tail, OutputChain.iter, size_OutHeader, leBytes,
      MAJOR_VERSION]

/-- Witness for `handshake_version_negotiation` at versions `(7, 30)`,
`(7, 31)` and `(8, 0)`. -/
theorem handshake_version_negotiation_witness :
    Session.handshake_check 9 7 30 =
      .protocolInit
        { len := 16, error := -EPROTONOSUPPORT, unique := 9,
          payload := [] } ∧
    Session.handshake_check 9 7 31 = .proceed ∧
    Session.handshake_check 9 8 0 =
      .restart
        { len := 20, error := 0, unique := 9,
          payload := [7, 0, 0, 0] } :=
  ⟨(handshake_version_negotiation 9 7 30).1 (Or.inr (by decide)),
   (handshake_version_negotiation 9 7 31).2.1 (by decide) (by decide),
   (handshake_version_negotiation 9 8 0).2.2 (by decide)⟩

/-- C4: every reply is framed with an `OutHeader` whose `len` field is
16 (the `OutHeader` size) plus the total byte length of all payload
segments of the output chain and whose `unique` is the request's
unique; a `writev` reporting fewer bytes than `len` fails with
`ShortWrite`. -/
theorem session_send_framing (unique : Nat) (error : Int)
    (output : OutputChain)
    (h : size_OutHeader + chain_payload_len output < 2 ^ 32) :
    (Session.send unique error output).len =
      size_OutHeader + chain_payload_len output ∧
    (Session.send unique error output).unique = unique ∧
    ∀ written < (Session.send unique error output).len,
      Session.write_result (Session.send unique error output) written =
        .error .ShortWrite := by
  refine ⟨Nat.mod_eq_of_lt h, rfl, fun written hw => ?_⟩
  rw [Session.write_result, if_neg (Nat.ne_of_lt hw)]

/-- Witness for `session_send_framing` on a three-byte single-segment
chain. -/
theorem session_send_framing_witness :
    (Session.send 5 0 (OutputChain.tail [[1, 2, 3]])).len = 19 ∧
    (Session.send 5 0 (OutputChain.tail [[1, 2, 3]])).unique = 5 ∧
    Session.write_result (Session.send 5 0 (OutputChain.tail [[1, 2, 3]]))
        7 = .error .ShortWrite := by
  obtain ⟨h1, h2, h3⟩ :=
    session_send_framing 5 0 (OutputChain.tail [[1, 2, 3]]) (by decide)
  exact ⟨by rw [h1]; decide, h2, h3 7 (by rw [h1]; decide)⟩

/-- Any two-bit mask intersected with 8 is empty: helper for the
`open_flags_bits` analysis. -/
theorem land_two_land_eight : ∀ v ≤ 2, v &&& 8 = 0 := by decide

/-- C5 (code bug): `open_flags_bits` masks the accumulated reply state
with `KEEP_CACHE & CACHE_DIR`, two disjoint bits, so the emitted
`OpenOut.open_flags` is always 0 — even though `force_direct_io` did
set the `DIRECT_IO` bit in the reply state, the emitted `OpenOut` of
`ok_with_handle` is identical to the one for an empty state. -/
theorem open_flags_bits_discards_flags :
    (∀ state : Nat, open_flags_bits state = 0) ∧
    (ReplyOpen.force_direct_io OpenOutFlags.empty &&&
        OpenOutFlags.DIRECT_IO = OpenOutFlags.DIRECT_IO) ∧
    ∀ unique handle : Nat,
      ReplyOpen.ok_with_handle unique
          (ReplyOpen.force_direct_io OpenOutFlags.empty) handle =
        ReplyOpen.ok_with_handle unique OpenOutFlags.empty handle := by
  have hz : ∀ state : Nat, open_flags_bits state = 0 := fun state =>
    land_two_land_eight (state &&& OpenOutFlags.KEEP_CACHE)
      Nat.and_le_right
  refine ⟨hz, by decide, fun unique handle => ?_⟩
  simp [ReplyOpen.ok_with_handle, hz]

/-- C10: `Reply<Readdir>::buffered` asserts the supplied buffer is
empty (modelled as `none` for the panic) and otherwise returns a
`Reply<BufferedReaddir<B>>` preserving `unique`, `max_read` and
`is_plus`. -/
theorem readdir_buffered_requires_empty (reply : ReaddirReply0)
    (buffer : ByteBuf) :
    (buffer.as_ref ≠ [] → Readdir.buffered reply buffer = none) ∧
    (buffer.as_ref = [] →
      Readdir.buffered reply buffer =
        some
          { unique := reply.unique
            state :=
              { max_read := reply.max_read
                is_plus := reply.is_plus
                buffer := buffer } }) := by
  constructor <;> intro h <;> simp_all [Readdir.buffered, ByteBuf.as_ref]

/-- Witness for `readdir_buffered_requires_empty` on a one-byte and an
empty buffer. -/
theorem readdir_buffered_requires_empty_witness :
    Readdir.buffered ⟨3, 64, true⟩ ⟨8, [1]⟩ = none ∧
    Readdir.buffered ⟨3, 64, true⟩ ⟨8, []⟩ =
      some { unique := 3, state := ⟨64, true, ⟨8, []⟩⟩ } :=
  ⟨(readdir_buffered_requires_empty ⟨3, 64, true⟩ ⟨8, [1]⟩).1 (by decide),
   (readdir_buffered_requires_empty ⟨3, 64, true⟩ ⟨8, []⟩).2 rfl⟩

theorem encode_GetxattrOut_length (size : Nat) :
    (encode_GetxattrOut size).length = 8 := by
  simp [encode_GetxattrOut, leBytes_length]

/-- C7: `Getxattr::gather(fragments)` with `actual_size` the summed
fragment length: a request size of 0 answers with a `GetxattrOut`
whose `size` field is `actual_size`; a nonzero request size below
`actual_size` fails with `ERANGE`; otherwise the reply payload is
exactly the concatenated fragment bytes. -/
theorem getxattr_gather_cases (unique state_size : Nat)
    (fragments : List (List Nat))
    (h : (fragments.map List.length).sum < 2 ^ 32) :
    (state_size = 0 →
      Getxattr.gather unique state_size fragments =
        some
          { len := 24, error := 0, unique := unique,
            payload :=
              encode_GetxattrOut ((fragments.map List.length).sum) }) ∧
    (state_size ≠ 0 → state_size < (fragments.map List.length).sum →
      Getxattr.gather unique state_size fragments =
        some
          { len := 16, error := -ERANGE, unique := unique,
            payload := [] }) ∧
    (state_size ≠ 0 → (fragments.map List.length).sum ≤ state_size →
      Getxattr.gather unique state_size fragments =
        some
          { len :=
              (size_OutHeader + (fragments.map List.length).sum) % 2 ^ 32
            error := 0, unique := unique,
            payload := fragments.flatten }) := by
  refine ⟨fun h0 => ?_, fun h0 hlt => ?_, fun h0 hge => ?_⟩
  · rw [Getxattr.gather]
    simp only [if_pos h, if_pos h0]
    simp [Getxattr.requires_size, Session.ok_send, Session.send,
      chain_payload, chain_payload_len, OutputChain.tail, OutputChain.iter,
      size_OutHeader, encode_GetxattrOut_length]
  · rw [Getxattr.gather]
    simp only [if_pos h, if_neg h0, if_pos hlt]
    rw [session_fail_eq_of_pos unique ERANGE (by decide)]
  · rw [Getxattr.gather]
    simp only [if_pos h, if_neg h0, if_neg (Nat.not_lt.2 hge)]
    simp [Session.ok_send, Session.send, chain_payload, chain_payload_len,
      OutputChain.tail, OutputChain.iter, size_OutHeader]

/-- Witness for `getxattr_gather_cases` with fragments
`[[1, 2], [3]]` in all three branches. -/
theorem getxattr_gather_cases_witness :
    Getxattr.gather 2 0 [[1, 2], [3]] =
      some
        { len := 24, error := 0, unique := 2,
          payload := encode_GetxattrOut 3 } ∧
    Getxattr.gather 2 2 [[1, 2], [3]] =
      some { len := 16, error := -ERANGE, unique := 2, payload := [] } ∧
    Getxattr.gather 2 5 [[1, 2], [3]] =
      some { len := 19, error := 0, unique := 2, payload := [1, 2, 3] } := by
  obtain ⟨h1, h2, h3⟩ := getxattr_gather_cases 2 0 [[1, 2], [3]] (by decide)
  obtain ⟨g1, g2, g3⟩ := getxattr_gather_cases 2 2 [[1, 2], [3]] (by decide)
  obtain ⟨f1, f2, f3⟩ := getxattr_gather_cases 2 5 [[1, 2], [3]] (by decide)
  refine ⟨?_, ?_, ?_⟩
  · rw [h1 rfl]; decide
  · rw [g2 (by decide) (by decide)]
  · rw [f3 (by decide) (by decide)]; decide

/-- C6: a `Write` whose `WriteIn.size` differs from the data length
still parses (the body codec takes the whole remainder as the data
payload), the `FromRequest` hook flags the logged warning, and the
acknowledgement emitted by `all()` reports `WriteIn.size`, not the
data length. -/
theorem write_size_mismatch_trusted (body_bytes : List Nat)
    (hlen : size_WriteIn ≤ body_bytes.length)
    (hmm : WriteIn.sizeField (body_bytes.take size_WriteIn) ≠
      (body_bytes.drop size_WriteIn).length) :
    Write.parse_body body_bytes =
      .ok (body_bytes.take size_WriteIn, body_bytes.drop size_WriteIn) ∧
    Write.warns (body_bytes.take size_WriteIn)
        (body_bytes.drop size_WriteIn) = true ∧
    ∀ unique : Nat,
      Write.all unique
          (Write.from_request (body_bytes.take size_WriteIn)
            (body_bytes.drop size_WriteIn)) =
        { len := 24, error := 0, unique := unique,
          payload :=
            encode_WriteOut
              (WriteIn.sizeField (body_bytes.take size_WriteIn)) } := by
  refine ⟨by rw [Write.parse_body, if_pos hlen],
    by simpa [Write.warns] using hmm, fun unique => ?_⟩
  simp [Write.all, Write.from_request, Session.ok_send, Session.send,
    chain_payload, chain_payload_len, OutputChain.tail, OutputChain.iter,
    size_OutHeader, encode_WriteOut, leBytes]

/-- Witness for `write_size_mismatch_trusted`: a `WriteIn` reporting
`size = 2` followed by three data bytes. -/
theorem write_size_mismatch_trusted_witness :
    Write.parse_body
        ((List.replicate 16 0 ++ leBytes 4 2 ++ List.replicate 20 0) ++
          [9, 9, 9]) =
      .ok (List.replicate 16 0 ++ leBytes 4 2 ++ List.replicate 20 0,
        [9, 9, 9]) ∧
    Write.all 4
        (Write.from_request
          (List.replicate 16 0 ++ leBytes 4 2 ++ List.replicate 20 0)
          [9, 9, 9]) =
      { len := 24, error := 0, unique := 4,
        payload := encode_WriteOut 2 } := by
  obtain ⟨h1, h2, h3⟩ :=
    write_size_mismatch_trusted
      ((List.replicate 16 0 ++ leBytes 4 2 ++ List.replicate 20 0) ++
        [9, 9, 9]) (by decide) (by decide)
  exact ⟨h1.trans (by rfl), (h3 4).trans (by rfl)⟩

/-- Masking a `u64` with `!7` (the complement of the dirent alignment
mask) clears the low three bits. -/
theorem land_high_mask (x : Nat) (hx : x < 2 ^ 64) :
    x &&& (2 ^ 64 - 1 - 7) = 8 * (x / 8) := by
  have h8 : 8 * (x / 8) = (x >>> 3) <<< 3 := by
    rw [Nat.shiftRight_eq_div_pow, Nat.shiftLeft_eq]
    norm_num [Nat.mul_comm]
  have hm : ((2 : Nat) ^ 64 - 1 - 7) = (2 ^ 61 - 1) <<< 3 := by
    rw [Nat.shiftLeft_eq]; norm_num
  rw [h8, hm]
  apply Nat.eq_of_testBit_eq
  intro i
  simp only [Nat.testBit_and, Nat.testBit_shiftLeft, Nat.testBit_shiftRight,
    Nat.testBit_two_pow_sub_one]
  by_cases h3 : 3 ≤ i
  · by_cases h64 : i < 64
    · have hi : 3 + (i - 3) = i := by omega
      simp [h3, hi, show i - 3 < 61 by omega]
    · have hfalse : x.testBit i = false :=
        Nat.testBit_lt_two_pow
          (lt_of_lt_of_le hx (Nat.pow_le_pow_right (by norm_num) (by omega)))
      have hfalse2 : x.testBit (3 + (i - 3)) = false := by
        rwa [show 3 + (i - 3) = i by omega]
      simp [hfalse, hfalse2]
  · simp [h3]

/-- `dirent_pad_bytes` pads `n` up to the next multiple of 8. -/
theorem dirent_pad_spec (n : Nat) (h : n + 7 < 2 ^ 64) :
    n + dirent_pad_bytes n = 8 * ((n + 7) / 8) := by
  have hmask := land_high_mask (n + 7) h
  have e1 : ((1 : Nat) <<< DIRENT_ALIGNMENT_BITS) - 1 = 7 := by decide
  simp only [dirent_pad_bytes, e1, Nat.mod_eq_of_lt h, hmask]
  omega

/-- The record length `entry` computes for one directory entry: header
(`Dirent` or `DirentPlus`) plus name plus alignment padding. -/
def readdir_record_len (is_plus : Bool) (name_len : Nat) : Nat :=
  let entry_header_len := if is_plus then size_DirentPlus else size_Dirent
  entry_header_len + name_len +
    dirent_pad_bytes (entry_header_len + name_len)

/-- The space `entry` may still fill: free buffer capacity capped by
what `max_read` still allows. -/
def readdir_usable_space (s : ReaddirState) : Nat :=
  min (s.buffer.cap - s.buffer.data.length)
    (s.max_read - s.buffer.data.length)

/-- C3: when the usable space is smaller than the 8-byte-aligned record
length, `Reply<BufferedReaddir<B>>::entry` does not emit the entry: it
fails with `ENOBUFS` if nothing is buffered yet, and otherwise flushes
the already-buffered records as the reply. -/
theorem buffered_readdir_entry_overflow (reply : ReaddirReply)
    (e : EntryInput) (hname : e.name.length < 2 ^ 32)
    (hsmall : readdir_usable_space reply.state <
      readdir_record_len reply.state.is_plus e.name.length) :
    (readdir_record_len reply.state.is_plus e.name.length =
      8 * (((if reply.state.is_plus then size_DirentPlus else size_Dirent) +
        e.name.length + 7) / 8)) ∧
    (reply.state.buffer.data = [] →
      BufferedReaddir.entry reply e =
        .interrupted
          { len := 16, error := -ENOBUFS, unique := reply.unique,
            payload := [] }) ∧
    (reply.state.buffer.data ≠ [] →
      BufferedReaddir.entry reply e =
        .interrupted
          { len := (size_OutHeader + reply.state.buffer.data.length) % 2 ^ 32
            error := 0, unique := reply.unique,
            payload := reply.state.buffer.data }) := by
  have hsmall' :
      min reply.state.buffer.remaining_mut
          (reply.state.max_read - reply.state.buffer.as_ref.length) <
        (if reply.state.is_plus then size_DirentPlus else size_Dirent) +
          e.name.length +
          dirent_pad_bytes
            ((if reply.state.is_plus then size_DirentPlus else size_Dirent) +
              e.name.length) := by
    simpa [readdir_usable_space, readdir_record_len, ByteBuf.remaining_mut,
      ByteBuf.as_ref] using hsmall
  refine ⟨?_, fun hempty => ?_, fun hnonempty => ?_⟩
  · have hb : (if reply.state.is_plus then size_DirentPlus
        else size_Dirent) + e.name.length + 7 < 2 ^ 64 := by
      split <;> simp only [size_DirentPlus, size_Dirent] <;> omega
    have := dirent_pad_spec
      ((if reply.state.is_plus then size_DirentPlus else size_Dirent) +
        e.name.length) hb
    simp only [readdir_record_len]
    omega
  · rw [BufferedReaddir.entry]
    simp only [if_pos hsmall']
    have : reply.state.buffer.as_ref.isEmpty = true := by
      simp [ByteBuf.as_ref, hempty]
    rw [if_pos this, session_fail_eq_of_pos reply.unique ENOBUFS (by decide)]
  · rw [BufferedReaddir.entry]
    simp only [if_pos hsmall']
    have : ¬reply.state.buffer.as_ref.isEmpty = true := by
      simp [ByteBuf.as_ref, hnonempty]
    rw [if_neg this]
    simp [BufferedReaddir.endReply, Session.ok_send, Session.send,
      chain_payload, chain_payload_len, OutputChain.tail, OutputChain.iter,
      ByteBuf.as_ref, size_OutHeader]

/-- Witness for `buffered_readdir_entry_overflow`: a one-byte name that
does not fit a 16-byte empty buffer (`ENOBUFS`) and a 32-byte buffer
already holding one byte (flush). -/
theorem buffered_readdir_entry_overflow_witness :
    BufferedReaddir.entry
        ⟨11, ⟨100, false, ⟨16, []⟩⟩⟩
        ⟨1, [97], ⟨7, 0, List.replicate 88 0, 0, 0⟩, 0, 0⟩ =
      .interrupted
        { len := 16, error := -ENOBUFS, unique := 11, payload := [] } ∧
    BufferedReaddir.entry
        ⟨12, ⟨100, false, ⟨32, [5]⟩⟩⟩
        ⟨1, [97], ⟨7, 0, List.replicate 88 0, 0, 0⟩, 0, 0⟩ =
      .interrupted
        { len := 17, error := 0, unique := 12, payload := [5] } := by
  refine ⟨?_, ?_⟩
  · exact
      (buffered_readdir_entry_overflow ⟨11, ⟨100, false, ⟨16, []⟩⟩⟩
        ⟨1, [97], ⟨7, 0, List.replicate 88 0, 0, 0⟩, 0, 0⟩
        (by decide) (by decide)).2.1 rfl
  · exact
      ((buffered_readdir_entry_overflow ⟨12, ⟨100, false, ⟨32, [5]⟩⟩⟩
        ⟨1, [97], ⟨7, 0, List.replicate 88 0, 0, 0⟩, 0, 0⟩
        (by decide) (by decide)).2.2 (by decide)).trans (by decide)

theorem lenField_take (l : List Nat) :
    InHeader.lenField (l.take size_InHeader) = InHeader.lenField l := by
  simp [InHeader.lenField, readU32, List.take_take, size_InHeader]

theorem opcodeField_take (l : List Nat) :
    InHeader.opcodeField (l.take size_InHeader) =
      InHeader.opcodeField l := by
  simp only [InHeader.opcodeField, readU32, size_InHeader, List.drop_take]
  norm_num [List.take_take]

/-- Reduction of `Request.try_from` once the header is long enough. -/
theorem try_from_eq_of_le (full_bytes : List Nat)
    (h40 : size_InHeader ≤ full_bytes.length) :
    Request.try_from full_bytes =
      (if InHeader.lenField full_bytes ≠ full_bytes.length then
        .error .BadLength
       else
        match Opcode.tryFrom (InHeader.opcodeField full_bytes) with
        | none => .error .BadOpcode
        | some opcode =>
          match parse_body opcode (full_bytes.drop size_InHeader) with
          | .error e => .error e
          | .ok (body, rest) =>
            if rest.isEmpty then
              .ok ⟨full_bytes.take size_InHeader, body⟩
            else .error .BadLength) := by
  rw [Request.try_from, split_from_bytes, if_pos h40]
  simp only [lenField_take, opcodeField_take]

/-- C1: decoding a raw request buffer succeeds if and only if the
header's `len` field equals the buffer length, the opcode is known and
the opcode's body grammar consumes every byte after the header;
otherwise it returns `BadLength` for a length mismatch or trailing
bytes, `BadOpcode` for an unknown opcode, and propagates the grammar's
error (`Truncated` when the body runs out of bytes, also when the
buffer cannot hold the header). -/
theorem request_try_from_characterization (full_bytes : List Nat) :
    (full_bytes.length < size_InHeader →
      Request.try_from full_bytes = .error .Truncated) ∧
    (size_InHeader ≤ full_bytes.length →
      ((∃ r, Request.try_from full_bytes = .ok r) ↔
        InHeader.lenField full_bytes = full_bytes.length ∧
        ∃ oc body,
          Opcode.tryFrom (InHeader.opcodeField full_bytes) = some oc ∧
          parse_body oc (full_bytes.drop size_InHeader) = .ok (body, [])) ∧
      (InHeader.lenField full_bytes ≠ full_bytes.length →
        Request.try_from full_bytes = .error .BadLength) ∧
      (InHeader.lenField full_bytes = full_bytes.length →
        Opcode.tryFrom (InHeader.opcodeField full_bytes) = none →
        Request.try_from full_bytes = .error .BadOpcode) ∧
      (∀ oc body rest,
        InHeader.lenField full_bytes = full_bytes.length →
        Opcode.tryFrom (InHeader.opcodeField full_bytes) = some oc →
        parse_body oc (full_bytes.drop size_InHeader) = .ok (body, rest) →
        rest ≠ [] → Request.try_from full_bytes = .error .BadLength) ∧
      (∀ oc err,
        InHeader.lenField full_bytes = full_bytes.length →
        Opcode.tryFrom (InHeader.opcodeField full_bytes) = some oc →
        parse_body oc (full_bytes.drop size_InHeader) = .error err →
        Request.try_from full_bytes = .error err)) := by
  constructor
  · intro hshort
    rw [Request.try_from, split_from_bytes, if_neg (Nat.not_le.2 hshort)]
  · intro h40
    have E := try_from_eq_of_le full_bytes h40
    refine ⟨⟨fun ⟨r, hr⟩ => ?_, fun ⟨hlen, oc, body, hoc, hpb⟩ => ?_⟩,
      fun hne => ?_, fun hlen hnone => ?_,
      fun oc body rest hlen hoc hpb hrest => ?_,
      fun oc err hlen hoc hperr => ?_⟩
    · rw [E] at hr
      by_cases hlen : InHeader.lenField full_bytes = full_bytes.length
      · refine ⟨hlen, ?_⟩
        rw [if_neg (by simpa using hlen)] at hr
        cases hoc : Opcode.tryFrom (InHeader.opcodeField full_bytes) with
        | none => rw [hoc] at hr; exact absurd hr (by simp)
        | some oc =>
          rw [hoc] at hr
          dsimp only at hr
          cases hpb : parse_body oc (full_bytes.drop size_InHeader) with
          | error e => rw [hpb] at hr; exact absurd hr (by simp)
          | ok pair =>
            obtain ⟨body, rest⟩ := pair
            rw [hpb] at hr
            dsimp only at hr
            cases rest with
            | nil => exact ⟨oc, body, rfl, hpb⟩
            | cons b bs =>
              rw [if_neg (by simp)] at hr
              exact absurd hr (by simp)
      · rw [if_pos hlen] at hr
        exact absurd hr (by simp)
    · rw [E, if_neg (by simpa using hlen), hoc]
      dsimp only
      rw [hpb]
      exact ⟨_, rfl⟩
    · rw [E, if_pos hne]
    · rw [E, if_neg (by simpa using hlen), hnone]
    · rw [E, if_neg (by simpa using hlen), hoc]
      dsimp only
      rw [hpb]
      dsimp only
      rw [if_neg (by simpa using hrest)]
    · rw [E, if_neg (by simpa using hlen), hoc]
      dsimp only
      rw [hperr]

/-- Witness for `request_try_from_characterization`: a well-formed
`Getattr` request decodes, an unknown opcode 7 yields `BadOpcode`, and
a three-byte buffer yields `Truncated`. -/
theorem request_try_from_characterization_witness :
    (∃ r,
      Request.try_from
          (leBytes 4 56 ++ leBytes 4 3 ++ List.replicate 32 0 ++
            List.replicate 16 0) = .ok r) ∧
    Request.try_from
        (leBytes 4 44 ++ leBytes 4 7 ++ List.replicate 32 0 ++
          List.replicate 4 0) = .error .BadOpcode ∧
    Request.try_from [1, 2, 3] = .error .Truncated := by
  refine ⟨?_, ?_, ?_⟩
  · exact
      ((request_try_from_characterization
        (leBytes 4 56 ++ leBytes 4 3 ++ List.replicate 32 0 ++
          List.replicate 16 0)).2 (by decide)).1.mpr
        ⟨by decide, .Getattr, .Getattr (List.replicate 16 0), by decide, rfl⟩
  · exact
      ((request_try_from_characterization
        (leBytes 4 44 ++ leBytes 4 7 ++ List.replicate 32 0 ++
          List.replicate 4 0)).2 (by decide)).2.2.1 (by decide) (by decide)
  · exact (request_try_from_characterization [1, 2, 3]).1 (by decide)

end BlownFuse
